import Mathlib

/-!
Verification of the transaction-construction and canonical-encoding engine
(programmable transaction builder, input pool, argument resolver, transaction
assembler and canonical codec) together with the kiosk `TransferPolicyTransaction`
helper.

The codec, input pool, argument resolver and assembler are not present in the
sampled sources (only their tests, documentation and consumers are), so they are
modelled from the specification; the `TransferPolicyTransaction` helper is
embedded directly from `sdk/kiosk/src/client/tp-transaction.ts`.

Bytes are modelled as natural numbers (well-formedness demands `< 256`); byte
strings as `List Nat`.  Decoders consume a prefix of the byte string and return
the decoded value together with the unconsumed tail.
-/

namespace SuiSpec

/-! ## Codec primitives -/

/-- Fuel-driven worker for `encodeUleb`; the fuel is structurally decreasing
and always suffices when it starts at the number itself. -/
def encodeUlebAux : Nat → Nat → List Nat
  | 0, n => [n % 128]
  | fuel + 1, n =>
    if n < 128 then [n]
    else (n % 128 + 128) :: encodeUlebAux fuel (n / 128)

/-- Modelled from the spec: unsigned variable-length integer (base-128,
little-endian groups, continuation bit set on all but the last byte), used for
sequence lengths and tagged-union discriminants (spec section 4.1 and 6). -/
def encodeUleb (n : Nat) : List Nat :=
  encodeUlebAux n n

/-- Modelled from the spec: decoder for the unsigned variable-length integer,
consuming a prefix of the byte string. -/
def decodeUleb : List Nat → Option (Nat × List Nat)
  | [] => none
  | b :: rest =>
    if b < 128 then some (b, rest)
    else
      match decodeUleb rest with
      | some (m, rest2) => some ((b - 128) + 128 * m, rest2)
      | none => none

theorem decodeUleb_encodeUlebAux (fuel : Nat) :
    ∀ n, n ≤ fuel → ∀ rest : List Nat,
      decodeUleb (encodeUlebAux fuel n ++ rest) = some (n, rest) := by
  induction fuel with
  | zero =>
    intro n hn rest
    have : n = 0 := Nat.le_zero.mp hn
    subst this
    simp [encodeUlebAux, decodeUleb]
  | succ fuel ih =>
    intro n hn rest
    by_cases h : n < 128
    · simp [encodeUlebAux, h, decodeUleb]
    · have hpos : 0 < n := by omega
      have hdiv : n / 128 < n := Nat.div_lt_self hpos (by omega)
      have hfuel : n / 128 ≤ fuel := by omega
      simp only [encodeUlebAux, h, if_false, List.cons_append, decodeUleb]
      have hb : ¬ (n % 128 + 128 < 128) := by omega
      simp only [hb, if_false, ih (n / 128) hfuel]
      have : n % 128 + 128 - 128 + 128 * (n / 128) = n := by
        have := Nat.mod_add_div n 128
        omega
      rw [this]

theorem decodeUleb_encodeUleb (n : Nat) (rest : List Nat) :
    decodeUleb (encodeUleb n ++ rest) = some (n, rest) :=
  decodeUleb_encodeUlebAux n n (Nat.le_refl n) rest

/-- Modelled from the spec: fixed-width little-endian integer of `w` bytes
(spec section 4.1: u8/u16/u32/u64/u128, little-endian). -/
def encodeFix : Nat → Nat → List Nat
  | 0, _ => []
  | w + 1, n => n % 256 :: encodeFix w (n / 256)

/-- Modelled from the spec: decoder for a fixed-width little-endian integer. -/
def decodeFix : Nat → List Nat → Option (Nat × List Nat)
  | 0, l => some (0, l)
  | _ + 1, [] => none
  | w + 1, b :: l =>
    match decodeFix w l with
    | some (m, rest) => some (b + 256 * m, rest)
    | none => none

theorem decodeFix_encodeFix (w n : Nat) (hn : n < 256 ^ w) (rest : List Nat) :
    decodeFix w (encodeFix w n ++ rest) = some (n, rest) := by
  induction w generalizing n with
  | zero =>
    have : n = 0 := by simpa using hn
    subst this
    simp [encodeFix, decodeFix]
  | succ w ih =>
    have hdiv : n / 256 < 256 ^ w := by
      rw [Nat.div_lt_iff_lt_mul (by omega)]
      calc n < 256 ^ (w + 1) := hn
        _ = 256 ^ w * 256 := by rw [Nat.pow_succ]
    simp only [encodeFix, List.cons_append, decodeFix, List.append_eq,
      ih (n / 256) hdiv]
    have : n % 256 + 256 * (n / 256) = n := Nat.mod_add_div n 256
    rw [this]

/-- Read exactly `k` bytes off the front of the byte string. -/
def readN : Nat → List Nat → Option (List Nat × List Nat)
  | 0, l => some ([], l)
  | _ + 1, [] => none
  | k + 1, b :: l =>
    match readN k l with
    | some (xs, rest) => some (b :: xs, rest)
    | none => none

theorem readN_append (xs : List Nat) (rest : List Nat) :
    readN xs.length (xs ++ rest) = some (xs, rest) := by
  induction xs with
  | nil => simp [readN]
  | cons b l ih => simp [readN, ih]

/-- Modelled from the spec: length-prefixed byte string (`varint(length)`
followed by the raw bytes), used for `Pure` inputs, identifiers and module
byte-code (spec sections 4.1 and 6). -/
def encodeBytes (bs : List Nat) : List Nat :=
  encodeUleb bs.length ++ bs

/-- Modelled from the spec: decoder for a length-prefixed byte string. -/
def decodeBytes (l : List Nat) : Option (List Nat × List Nat) :=
  match decodeUleb l with
  | some (n, l2) => readN n l2
  | none => none

theorem decodeBytes_encodeBytes (bs : List Nat) (rest : List Nat) :
    decodeBytes (encodeBytes bs ++ rest) = some (bs, rest) := by
  simp [encodeBytes, decodeBytes, List.append_assoc, decodeUleb_encodeUleb,
    readN_append]

/-- Modelled from the spec: a sequence is a `varint(length)` prefix followed by
that many serialized elements (spec section 6). -/
def encodeListWith (enc : α → List Nat) (xs : List α) : List Nat :=
  encodeUleb xs.length ++ xs.flatMap enc

/-- Decode exactly `k` consecutive elements using the element decoder. -/
def decodeCount (dec : List Nat → Option (α × List Nat)) :
    Nat → List Nat → Option (List α × List Nat)
  | 0, l => some ([], l)
  | k + 1, l =>
    match dec l with
    | some (a, l2) =>
      match decodeCount dec k l2 with
      | some (xs, rest) => some (a :: xs, rest)
      | none => none
    | none => none

/-- Modelled from the spec: decoder for a length-prefixed sequence. -/
def decodeListWith (dec : List Nat → Option (α × List Nat)) (l : List Nat) :
    Option (List α × List Nat) :=
  match decodeUleb l with
  | some (n, l2) => decodeCount dec n l2
  | none => none

theorem decodeCount_flatMap (dec : List Nat → Option (α × List Nat))
    (enc : α → List Nat) (xs : List α)
    (h : ∀ a ∈ xs, ∀ r : List Nat, dec (enc a ++ r) = some (a, r))
    (rest : List Nat) :
    decodeCount dec xs.length (xs.flatMap enc ++ rest) = some (xs, rest) := by
  induction xs with
  | nil => simp [decodeCount]
  | cons a l ih =>
    have ha := h a (by simp)
    have hl : ∀ b ∈ l, ∀ r : List Nat, dec (enc b ++ r) = some (b, r) := by
      intro b hb r
      exact h b (by simp [hb]) r
    simp [decodeCount, List.append_assoc, ha, ih hl]

theorem decodeListWith_encodeListWith (dec : List Nat → Option (α × List Nat))
    (enc : α → List Nat) (xs : List α)
    (h : ∀ a ∈ xs, ∀ r : List Nat, dec (enc a ++ r) = some (a, r))
    (rest : List Nat) :
    decodeListWith dec (encodeListWith enc xs ++ rest) = some (xs, rest) := by
  simp [encodeListWith, decodeListWith, List.append_assoc, decodeUleb_encodeUleb,
    decodeCount_flatMap dec enc xs h rest]

/-- Modelled from the spec: an optional value is a presence byte (0 or 1)
followed by the payload when present. -/
def encodeOptWith (enc : α → List Nat) : Option α → List Nat
  | none => [0]
  | some a => 1 :: enc a

/-- Modelled from the spec: decoder for an optional value; an unknown presence
byte is a hard decode failure. -/
def decodeOptWith (dec : List Nat → Option (α × List Nat)) :
    List Nat → Option (Option α × List Nat)
  | [] => none
  | b :: l =>
    if b = 0 then some (none, l)
    else if b = 1 then
      match dec l with
      | some (a, l2) => some (some a, l2)
      | none => none
    else none

theorem decodeOptWith_encodeOptWith (dec : List Nat → Option (α × List Nat))
    (enc : α → List Nat) (x : Option α)
    (h : ∀ a ∈ x, ∀ r : List Nat, dec (enc a ++ r) = some (a, r))
    (rest : List Nat) :
    decodeOptWith dec (encodeOptWith enc x ++ rest) = some (x, rest) := by
  cases x with
  | none => simp [encodeOptWith, decodeOptWith]
  | some a => simp [encodeOptWith, decodeOptWith, h a (by simp) rest]

/-- Modelled from the spec: a boolean is a single byte 0 or 1. -/
def encodeBool (b : Bool) : List Nat :=
  if b then [1] else [0]

/-- Modelled from the spec: decoder for a boolean; any byte other than 0 or 1
is a hard decode failure. -/
def decodeBool : List Nat → Option (Bool × List Nat)
  | [] => none
  | b :: l =>
    if b = 0 then some (false, l)
    else if b = 1 then some (true, l)
    else none

theorem decodeBool_encodeBool (b : Bool) (rest : List Nat) :
    decodeBool (encodeBool b ++ rest) = some (b, rest) := by
  cases b <;> simp [encodeBool, decodeBool]

/-! ## Data model (spec section 3) -/

/-- Modelled from the spec: a fixed-width 32-byte address, always stored
normalized (lower-case, zero-padded, canonical width), so two textual
representations that normalize to the same bytes are the same value. -/
structure SuiAddress where
  bytes : List Nat
deriving DecidableEq, Repr

/-- A well-formed address has exactly 32 bytes, each below 256. -/
def SuiAddress.wf (a : SuiAddress) : Bool :=
  a.bytes.length == 32 && a.bytes.all (fun b => b < 256)

theorem SuiAddress.wf_len {a : SuiAddress} (h : a.wf = true) :
    a.bytes.length = 32 := by
  simp only [SuiAddress.wf, Bool.and_eq_true, beq_iff_eq] at h
  exact h.1

/-- Modelled from the spec: `ObjectRef` is `{id: Address, version: u64,
digest: FixedDigest}`; the digest is modelled as a fixed 32-byte string. -/
structure ObjectRef where
  objectId : SuiAddress
  version : Nat
  digest : List Nat
deriving DecidableEq, Repr

def ObjectRef.wf (r : ObjectRef) : Bool :=
  r.objectId.wf && r.version < 2 ^ 64 &&
    (r.digest.length == 32 && r.digest.all (fun b => b < 256))

/-- Modelled from the spec: `ObjectArg` is polymorphic over
ImmOrOwned(ObjectRef), SharedObject(id, initial_shared_version, mutable) and
Receiving(ObjectRef). -/
inductive ObjectArg
  | immOrOwned (ref : ObjectRef)
  | sharedObject (objectId : SuiAddress) (initialSharedVersion : Nat)
      (mutable : Bool)
  | receiving (ref : ObjectRef)
deriving DecidableEq, Repr

def ObjectArg.wf : ObjectArg → Bool
  | .immOrOwned r => r.wf
  | .sharedObject id v _ => id.wf && v < 2 ^ 64
  | .receiving r => r.wf

/-- The underlying object id an `ObjectArg` refers to. -/
def ObjectArg.objectIdOf : ObjectArg → SuiAddress
  | .immOrOwned r => r.objectId
  | .sharedObject id _ _ => id
  | .receiving r => r.objectId

/-- Modelled from the spec: an `Input` is either raw bytes (`Pure`) or an
object reference (`Object`). -/
inductive CallArg
  | pure (bytes : List Nat)
  | object (arg : ObjectArg)
deriving DecidableEq, Repr

def CallArg.wf : CallArg → Bool
  | .pure bs => bs.all (fun b => b < 256)
  | .object o => o.wf

/-- The object id of an input, when the input is an object reference. -/
def CallArg.objectIdOf : CallArg → Option SuiAddress
  | .pure _ => none
  | .object o => some o.objectIdOf

/-- Modelled from the spec: an `Argument` is a back-reference, polymorphic over
GasCoin, Input(index: u16), Result(index: u16) and
NestedResult(index: u16, subindex: u16). -/
inductive Argument
  | gasCoin
  | input (index : Nat)
  | result (index : Nat)
  | nestedResult (index : Nat) (resultIndex : Nat)
deriving DecidableEq, Repr

def Argument.wf : Argument → Bool
  | .gasCoin => true
  | .input i => i < 2 ^ 16
  | .result i => i < 2 ^ 16
  | .nestedResult i j => i < 2 ^ 16 && j < 2 ^ 16

/-- Modelled from the spec: the spec leaves the internal shape of `TypeTag`
unspecified beyond what section 4.4 requires — an embedded package address
(normalized on construction) and verbatim name components — so a type tag is
modelled as a struct tag of an address, a module name and a type name, the
names being UTF-8 byte strings. -/
structure TypeTag where
  address : SuiAddress
  module : List Nat
  name : List Nat
deriving DecidableEq, Repr

def TypeTag.wf (t : TypeTag) : Bool :=
  t.address.wf && t.module.all (fun b => b < 256) && t.name.all (fun b => b < 256)

/-- Modelled from the spec: the `Command` union of section 3, in declaration
order MoveCall, TransferObjects, SplitCoins, MergeCoins, MakeMoveVec, Publish,
Upgrade.  Module and function names are UTF-8 byte strings. -/
inductive Command
  | moveCall (package : SuiAddress) (module : List Nat) (function : List Nat)
      (typeArguments : List TypeTag) (arguments : List Argument)
  | transferObjects (objects : List Argument) (address : Argument)
  | splitCoins (coin : Argument) (amounts : List Argument)
  | mergeCoins (destination : Argument) (sources : List Argument)
  | makeMoveVec (type : Option TypeTag) (elements : List Argument)
  | publish (modules : List (List Nat)) (dependencies : List SuiAddress)
  | upgrade (modules : List (List Nat)) (dependencies : List SuiAddress)
      (package : SuiAddress) (ticket : Argument)
deriving DecidableEq, Repr

def Command.wf : Command → Bool
  | .moveCall pkg m f tas args =>
    pkg.wf && m.all (fun b => b < 256) && f.all (fun b => b < 256) &&
      tas.all TypeTag.wf && args.all Argument.wf
  | .transferObjects objs addr => objs.all Argument.wf && addr.wf
  | .splitCoins coin amounts => coin.wf && amounts.all Argument.wf
  | .mergeCoins dst srcs => dst.wf && srcs.all Argument.wf
  | .makeMoveVec ty elems =>
    (ty.map TypeTag.wf).getD true && elems.all Argument.wf
  | .publish mods deps =>
    mods.all (fun m => m.all (fun b => b < 256)) && deps.all SuiAddress.wf
  | .upgrade mods deps pkg ticket =>
    mods.all (fun m => m.all (fun b => b < 256)) && deps.all SuiAddress.wf &&
      pkg.wf && ticket.wf

/-- Modelled from the spec: gas data `{payment: seq<ObjectRef>, owner: Address,
price: u64, budget: u64}`. -/
structure GasData where
  payment : List ObjectRef
  owner : SuiAddress
  price : Nat
  budget : Nat
deriving DecidableEq, Repr

def GasData.wf (g : GasData) : Bool :=
  g.payment.all ObjectRef.wf && g.owner.wf &&
    g.price < 2 ^ 64 && g.budget < 2 ^ 64

/-- Modelled from the spec: the optional expiration epoch of a transaction. -/
inductive TransactionExpiration
  | none
  | epoch (e : Nat)
deriving DecidableEq, Repr

def TransactionExpiration.wf : TransactionExpiration → Bool
  | .none => true
  | .epoch e => e < 2 ^ 64

/-- Modelled from the spec: a programmable transaction is a pool of inputs and
an ordered command sequence. -/
structure ProgrammableTransaction where
  inputs : List CallArg
  commands : List Command
deriving DecidableEq, Repr

def ProgrammableTransaction.wf (pt : ProgrammableTransaction) : Bool :=
  pt.inputs.all CallArg.wf && pt.commands.all Command.wf

/-- Modelled from the spec: `TransactionKind` wraps a
`ProgrammableTransaction`; other kinds are out of scope. -/
inductive TransactionKind
  | programmable (pt : ProgrammableTransaction)
deriving DecidableEq, Repr

def TransactionKind.wf : TransactionKind → Bool
  | .programmable pt => pt.wf

/-- Modelled from the spec: the fields of the `V1` envelope, in the field order
of section 3 (sender, gasData, expiration, kind). -/
structure TransactionDataV1 where
  sender : SuiAddress
  gasData : GasData
  expiration : TransactionExpiration
  kind : TransactionKind
deriving DecidableEq, Repr

def TransactionDataV1.wf (d : TransactionDataV1) : Bool :=
  d.sender.wf && d.gasData.wf && d.expiration.wf && d.kind.wf

/-- Modelled from the spec: the versioned top-level envelope; a
`TransactionData` always begins with a version tag (`V1`). -/
inductive TransactionData
  | v1 (data : TransactionDataV1)
deriving DecidableEq, Repr

def TransactionData.wf : TransactionData → Bool
  | .v1 d => d.wf

/-! ## Schema-driven canonical encoding (spec sections 4.1 and 6) -/

/-- Modelled from the spec: an address is encoded as its 32 raw bytes (fixed
width, positional, no length prefix). -/
def encodeAddress (a : SuiAddress) : List Nat :=
  a.bytes

/-- Modelled from the spec: decoder for a fixed-width 32-byte address. -/
def decodeAddress (l : List Nat) : Option (SuiAddress × List Nat) :=
  match readN 32 l with
  | some (bs, rest) => some (⟨bs⟩, rest)
  | none => none

theorem decodeAddress_encodeAddress (a : SuiAddress) (h : a.bytes.length = 32)
    (rest : List Nat) :
    decodeAddress (encodeAddress a ++ rest) = some (a, rest) := by
  have := readN_append a.bytes rest
  rw [h] at this
  simp [encodeAddress, decodeAddress, this]

/-- Modelled from the spec: an `ObjectRef` is its fields in declared order —
address, u64 version, fixed 32-byte digest. -/
def encodeObjectRef (r : ObjectRef) : List Nat :=
  encodeAddress r.objectId ++ encodeFix 8 r.version ++ r.digest

/-- Modelled from the spec: decoder for an `ObjectRef`. -/
def decodeObjectRef (l : List Nat) : Option (ObjectRef × List Nat) :=
  match decodeAddress l with
  | some (id, l1) =>
    match decodeFix 8 l1 with
    | some (v, l2) =>
      match readN 32 l2 with
      | some (dig, rest) => some (⟨id, v, dig⟩, rest)
      | none => none
    | none => none
  | none => none

theorem decodeObjectRef_encodeObjectRef (r : ObjectRef) (h : r.wf = true)
    (rest : List Nat) :
    decodeObjectRef (encodeObjectRef r ++ rest) = some (r, rest) := by
  obtain ⟨id, v, dig⟩ := r
  simp only [ObjectRef.wf, Bool.and_eq_true, beq_iff_eq, decide_eq_true_eq] at h
  have hdig := readN_append dig rest
  rw [h.2.1] at hdig
  simp [encodeObjectRef, decodeObjectRef, List.append_assoc,
    decodeAddress_encodeAddress _ (SuiAddress.wf_len h.1.1),
    decodeFix_encodeFix 8 v (by exact_mod_cast h.1.2), hdig]

/-- Modelled from the spec: `ObjectArg` is a tagged union with discriminants in
declaration order — ImmOrOwned 0, SharedObject 1, Receiving 2. -/
def encodeObjectArg : ObjectArg → List Nat
  | .immOrOwned r => encodeUleb 0 ++ encodeObjectRef r
  | .sharedObject id v m => encodeUleb 1 ++ encodeAddress id ++ encodeFix 8 v ++ encodeBool m
  | .receiving r => encodeUleb 2 ++ encodeObjectRef r

/-- Modelled from the spec: decoder for `ObjectArg`; an unknown discriminant is
a hard decode failure. -/
def decodeObjectArg (l : List Nat) : Option (ObjectArg × List Nat) :=
  match decodeUleb l with
  | some (tag, l1) =>
    if tag = 0 then
      match decodeObjectRef l1 with
      | some (r, rest) => some (.immOrOwned r, rest)
      | none => none
    else if tag = 1 then
      match decodeAddress l1 with
      | some (id, l2) =>
        match decodeFix 8 l2 with
        | some (v, l3) =>
          match decodeBool l3 with
          | some (m, rest) => some (.sharedObject id v m, rest)
          | none => none
        | none => none
      | none => none
    else if tag = 2 then
      match decodeObjectRef l1 with
      | some (r, rest) => some (.receiving r, rest)
      | none => none
    else none
  | none => none

theorem decodeObjectArg_encodeObjectArg (o : ObjectArg) (h : o.wf = true)
    (rest : List Nat) :
    decodeObjectArg (encodeObjectArg o ++ rest) = some (o, rest) := by
  cases o with
  | immOrOwned r =>
    simp [encodeObjectArg, decodeObjectArg, List.append_assoc,
      decodeUleb_encodeUleb, decodeObjectRef_encodeObjectRef r h]
  | sharedObject id v m =>
    simp only [ObjectArg.wf, Bool.and_eq_true, decide_eq_true_eq] at h
    simp [encodeObjectArg, decodeObjectArg, List.append_assoc,
      decodeUleb_encodeUleb, decodeAddress_encodeAddress _ (SuiAddress.wf_len h.1),
      decodeFix_encodeFix 8 v (by exact_mod_cast h.2), decodeBool_encodeBool]
  | receiving r =>
    simp [encodeObjectArg, decodeObjectArg, List.append_assoc,
      decodeUleb_encodeUleb, decodeObjectRef_encodeObjectRef r h]

/-- Modelled from the spec: `Input` (a `CallArg`) is a tagged union — Pure 0,
Object 1. -/
def encodeCallArg : CallArg → List Nat
  | .pure bs => encodeUleb 0 ++ encodeBytes bs
  | .object o => encodeUleb 1 ++ encodeObjectArg o

/-- Modelled from the spec: decoder for an `Input`. -/
def decodeCallArg (l : List Nat) : Option (CallArg × List Nat) :=
  match decodeUleb l with
  | some (tag, l1) =>
    if tag = 0 then
      match decodeBytes l1 with
      | some (bs, rest) => some (.pure bs, rest)
      | none => none
    else if tag = 1 then
      match decodeObjectArg l1 with
      | some (o, rest) => some (.object o, rest)
      | none => none
    else none
  | none => none

theorem decodeCallArg_encodeCallArg (c : CallArg) (h : c.wf = true)
    (rest : List Nat) :
    decodeCallArg (encodeCallArg c ++ rest) = some (c, rest) := by
  cases c with
  | pure bs =>
    simp [encodeCallArg, decodeCallArg, List.append_assoc,
      decodeUleb_encodeUleb, decodeBytes_encodeBytes]
  | object o =>
    simp [encodeCallArg, decodeCallArg, List.append_assoc,
      decodeUleb_encodeUleb, decodeObjectArg_encodeObjectArg o h]

/-- Modelled from the spec: `Argument` is a tagged union — GasCoin 0, Input 1,
Result 2, NestedResult 3 — with u16 indices. -/
def encodeArgument : Argument → List Nat
  | .gasCoin => encodeUleb 0
  | .input i => encodeUleb 1 ++ encodeFix 2 i
  | .result i => encodeUleb 2 ++ encodeFix 2 i
  | .nestedResult i j => encodeUleb 3 ++ encodeFix 2 i ++ encodeFix 2 j

/-- Modelled from the spec: decoder for an `Argument`. -/
def decodeArgument (l : List Nat) : Option (Argument × List Nat) :=
  match decodeUleb l with
  | some (tag, l1) =>
    if tag = 0 then some (.gasCoin, l1)
    else if tag = 1 then
      match decodeFix 2 l1 with
      | some (i, rest) => some (.input i, rest)
      | none => none
    else if tag = 2 then
      match decodeFix 2 l1 with
      | some (i, rest) => some (.result i, rest)
      | none => none
    else if tag = 3 then
      match decodeFix 2 l1 with
      | some (i, l2) =>
        match decodeFix 2 l2 with
        | some (j, rest) => some (.nestedResult i j, rest)
        | none => none
      | none => none
    else none
  | none => none

theorem decodeArgument_encodeArgument (a : Argument) (h : a.wf = true)
    (rest : List Nat) :
    decodeArgument (encodeArgument a ++ rest) = some (a, rest) := by
  cases a with
  | gasCoin =>
    simp [encodeArgument, decodeArgument, decodeUleb_encodeUleb]
  | input i =>
    simp only [Argument.wf, decide_eq_true_eq] at h
    simp [encodeArgument, decodeArgument, List.append_assoc,
      decodeUleb_encodeUleb, decodeFix_encodeFix 2 i (by exact_mod_cast h)]
  | result i =>
    simp only [Argument.wf, decide_eq_true_eq] at h
    simp [encodeArgument, decodeArgument, List.append_assoc,
      decodeUleb_encodeUleb, decodeFix_encodeFix 2 i (by exact_mod_cast h)]
  | nestedResult i j =>
    simp only [Argument.wf, Bool.and_eq_true, decide_eq_true_eq] at h
    simp [encodeArgument, decodeArgument, List.append_assoc,
      decodeUleb_encodeUleb, decodeFix_encodeFix 2 i (by exact_mod_cast h.1),
      decodeFix_encodeFix 2 j (by exact_mod_cast h.2)]

/-- Modelled from the spec: a type tag is its address followed by its two
length-prefixed name components, in declared order. -/
def encodeTypeTag (t : TypeTag) : List Nat :=
  encodeAddress t.address ++ encodeBytes t.module ++ encodeBytes t.name

/-- Modelled from the spec: decoder for a type tag. -/
def decodeTypeTag (l : List Nat) : Option (TypeTag × List Nat) :=
  match decodeAddress l with
  | some (a, l1) =>
    match decodeBytes l1 with
    | some (m, l2) =>
      match decodeBytes l2 with
      | some (n, rest) => some (⟨a, m, n⟩, rest)
      | none => none
    | none => none
  | none => none

theorem decodeTypeTag_encodeTypeTag (t : TypeTag) (h : t.wf = true)
    (rest : List Nat) :
    decodeTypeTag (encodeTypeTag t ++ rest) = some (t, rest) := by
  obtain ⟨a, m, n⟩ := t
  simp only [TypeTag.wf, Bool.and_eq_true] at h
  simp [encodeTypeTag, decodeTypeTag, List.append_assoc,
    decodeAddress_encodeAddress _ (SuiAddress.wf_len h.1.1),
    decodeBytes_encodeBytes]

/-- Modelled from the spec: a `Command` is a tagged union with discriminants in
declaration order — MoveCall 0, TransferObjects 1, SplitCoins 2, MergeCoins 3,
MakeMoveVec 4, Publish 5, Upgrade 6 — each followed by its fields in declared
order; sequences are length-prefixed. -/
def encodeCommand : Command → List Nat
  | .moveCall pkg m f tas args =>
    encodeUleb 0 ++ encodeAddress pkg ++ encodeBytes m ++ encodeBytes f ++
      encodeListWith encodeTypeTag tas ++ encodeListWith encodeArgument args
  | .transferObjects objs addr =>
    encodeUleb 1 ++ encodeListWith encodeArgument objs ++ encodeArgument addr
  | .splitCoins coin amounts =>
    encodeUleb 2 ++ encodeArgument coin ++ encodeListWith encodeArgument amounts
  | .mergeCoins dst srcs =>
    encodeUleb 3 ++ encodeArgument dst ++ encodeListWith encodeArgument srcs
  | .makeMoveVec ty elems =>
    encodeUleb 4 ++ encodeOptWith encodeTypeTag ty ++
      encodeListWith encodeArgument elems
  | .publish mods deps =>
    encodeUleb 5 ++ encodeListWith encodeBytes mods ++
      encodeListWith encodeAddress deps
  | .upgrade mods deps pkg ticket =>
    encodeUleb 6 ++ encodeListWith encodeBytes mods ++
      encodeListWith encodeAddress deps ++ encodeAddress pkg ++
      encodeArgument ticket

/-- Modelled from the spec: decoder for a `Command`; an unknown discriminant is
a hard decode failure, never silently ignored. -/
def decodeCommand (l : List Nat) : Option (Command × List Nat) :=
  match decodeUleb l with
  | some (tag, l1) =>
    if tag = 0 then
      match decodeAddress l1 with
      | some (pkg, l2) =>
        match decodeBytes l2 with
        | some (m, l3) =>
          match decodeBytes l3 with
          | some (f, l4) =>
            match decodeListWith decodeTypeTag l4 with
            | some (tas, l5) =>
              match decodeListWith decodeArgument l5 with
              | some (args, rest) => some (.moveCall pkg m f tas args, rest)
              | none => none
            | none => none
          | none => none
        | none => none
      | none => none
    else if tag = 1 then
      match decodeListWith decodeArgument l1 with
      | some (objs, l2) =>
        match decodeArgument l2 with
        | some (addr, rest) => some (.transferObjects objs addr, rest)
        | none => none
      | none => none
    else if tag = 2 then
      match decodeArgument l1 with
      | some (coin, l2) =>
        match decodeListWith decodeArgument l2 with
        | some (amounts, rest) => some (.splitCoins coin amounts, rest)
        | none => none
      | none => none
    else if tag = 3 then
      match decodeArgument l1 with
      | some (dst, l2) =>
        match decodeListWith decodeArgument l2 with
        | some (srcs, rest) => some (.mergeCoins dst srcs, rest)
        | none => none
      | none => none
    else if tag = 4 then
      match decodeOptWith decodeTypeTag l1 with
      | some (ty, l2) =>
        match decodeListWith decodeArgument l2 with
        | some (elems, rest) => some (.makeMoveVec ty elems, rest)
        | none => none
      | none => none
    else if tag = 5 then
      match decodeListWith decodeBytes l1 with
      | some (mods, l2) =>
        match decodeListWith decodeAddress l2 with
        | some (deps, rest) => some (.publish mods deps, rest)
        | none => none
      | none => none
    else if tag = 6 then
      match decodeListWith decodeBytes l1 with
      | some (mods, l2) =>
        match decodeListWith decodeAddress l2 with
        | some (deps, l3) =>
          match decodeAddress l3 with
          | some (pkg, l4) =>
            match decodeArgument l4 with
            | some (ticket, rest) => some (.upgrade mods deps pkg ticket, rest)
            | none => none
          | none => none
        | none => none
      | none => none
    else none
  | none => none

theorem decodeArgument_list (args : List Argument)
    (h : args.all Argument.wf = true) (rest : List Nat) :
    decodeListWith decodeArgument (encodeListWith encodeArgument args ++ rest) =
      some (args, rest) := by
  refine decodeListWith_encodeListWith decodeArgument encodeArgument args ?_ rest
  intro a ha r
  exact decodeArgument_encodeArgument a (by

    exact List.all_eq_true.mp h a ha) r

theorem decodeTypeTag_list (tas : List TypeTag)
    (h : tas.all TypeTag.wf = true) (rest : List Nat) :
    decodeListWith decodeTypeTag (encodeListWith encodeTypeTag tas ++ rest) =
      some (tas, rest) := by
  refine decodeListWith_encodeListWith decodeTypeTag encodeTypeTag tas ?_ rest
  intro a ha r
  exact decodeTypeTag_encodeTypeTag a (List.all_eq_true.mp h a ha) r

theorem decodeAddress_list (deps : List SuiAddress)
    (h : deps.all SuiAddress.wf = true) (rest : List Nat) :
    decodeListWith decodeAddress (encodeListWith encodeAddress deps ++ rest) =
      some (deps, rest) := by
  refine decodeListWith_encodeListWith decodeAddress encodeAddress deps ?_ rest
  intro a ha r
  exact decodeAddress_encodeAddress a (SuiAddress.wf_len (List.all_eq_true.mp h a ha)) r

theorem decodeBytes_list (mods : List (List Nat)) (rest : List Nat) :
    decodeListWith decodeBytes (encodeListWith encodeBytes mods ++ rest) =
      some (mods, rest) := by
  refine decodeListWith_encodeListWith decodeBytes encodeBytes mods ?_ rest
  intro a _ r
  exact decodeBytes_encodeBytes a r

theorem decodeCommand_encodeCommand (c : Command) (h : c.wf = true)
    (rest : List Nat) :
    decodeCommand (encodeCommand c ++ rest) = some (c, rest) := by
  cases c with
  | moveCall pkg m f tas args =>
    simp only [Command.wf, Bool.and_eq_true] at h
    simp [encodeCommand, decodeCommand, List.append_assoc, decodeUleb_encodeUleb,
      decodeAddress_encodeAddress _ (SuiAddress.wf_len h.1.1.1.1),
      decodeBytes_encodeBytes, decodeTypeTag_list tas h.1.2,
      decodeArgument_list args h.2]
  | transferObjects objs addr =>
    simp only [Command.wf, Bool.and_eq_true] at h
    simp [encodeCommand, decodeCommand, List.append_assoc, decodeUleb_encodeUleb,
      decodeArgument_list objs h.1, decodeArgument_encodeArgument addr h.2]
  | splitCoins coin amounts =>
    simp only [Command.wf, Bool.and_eq_true] at h
    simp [encodeCommand, decodeCommand, List.append_assoc, decodeUleb_encodeUleb,
      decodeArgument_encodeArgument coin h.1, decodeArgument_list amounts h.2]
  | mergeCoins dst srcs =>
    simp only [Command.wf, Bool.and_eq_true] at h
    simp [encodeCommand, decodeCommand, List.append_assoc, decodeUleb_encodeUleb,
      decodeArgument_encodeArgument dst h.1, decodeArgument_list srcs h.2]
  | makeMoveVec ty elems =>
    simp only [Command.wf, Bool.and_eq_true] at h
    have hty : ∀ a ∈ ty, ∀ r : List Nat,
        decodeTypeTag (encodeTypeTag a ++ r) = some (a, r) := by
      intro a ha r
      refine decodeTypeTag_encodeTypeTag a ?_ r
      cases ty with
      | none => simp at ha
      | some t =>
        have : t = a := by simpa using ha
        subst this
        simpa [Option.map, Option.getD] using h.1
    simp [encodeCommand, decodeCommand, List.append_assoc, decodeUleb_encodeUleb,
      decodeOptWith_encodeOptWith decodeTypeTag encodeTypeTag ty hty,
      decodeArgument_list elems h.2]
  | publish mods deps =>
    simp only [Command.wf, Bool.and_eq_true] at h
    simp [encodeCommand, decodeCommand, List.append_assoc, decodeUleb_encodeUleb,
      decodeBytes_list, decodeAddress_list deps h.2]
  | upgrade mods deps pkg ticket =>
    simp only [Command.wf, Bool.and_eq_true] at h
    simp [encodeCommand, decodeCommand, List.append_assoc, decodeUleb_encodeUleb,
      decodeBytes_list, decodeAddress_list deps h.1.1.2,
      decodeAddress_encodeAddress _ (SuiAddress.wf_len h.1.2),
      decodeArgument_encodeArgument ticket h.2]

/-- Modelled from the spec: gas data is its fields in declared order — the
length-prefixed payment sequence, owner address, u64 price and u64 budget. -/
def encodeGasData (g : GasData) : List Nat :=
  encodeListWith encodeObjectRef g.payment ++ encodeAddress g.owner ++
    encodeFix 8 g.price ++ encodeFix 8 g.budget

/-- Modelled from the spec: decoder for gas data. -/
def decodeGasData (l : List Nat) : Option (GasData × List Nat) :=
  match decodeListWith decodeObjectRef l with
  | some (payment, l1) =>
    match decodeAddress l1 with
    | some (owner, l2) =>
      match decodeFix 8 l2 with
      | some (price, l3) =>
        match decodeFix 8 l3 with
        | some (budget, rest) => some (⟨payment, owner, price, budget⟩, rest)
        | none => none
      | none => none
    | none => none
  | none => none

theorem decodeGasData_encodeGasData (g : GasData) (h : g.wf = true)
    (rest : List Nat) :
    decodeGasData (encodeGasData g ++ rest) = some (g, rest) := by
  obtain ⟨payment, owner, price, budget⟩ := g
  simp only [GasData.wf, Bool.and_eq_true, decide_eq_true_eq] at h
  have hpay : decodeListWith decodeObjectRef
      (encodeListWith encodeObjectRef payment ++
        (encodeAddress owner ++ (encodeFix 8 price ++ (encodeFix 8 budget ++ rest)))) =
      some (payment, encodeAddress owner ++ (encodeFix 8 price ++ (encodeFix 8 budget ++ rest))) := by
    refine decodeListWith_encodeListWith decodeObjectRef encodeObjectRef payment ?_ _
    intro a ha r
    exact decodeObjectRef_encodeObjectRef a (List.all_eq_true.mp h.1.1.1 a ha) r
  simp [encodeGasData, decodeGasData, List.append_assoc, hpay,
    decodeAddress_encodeAddress _ (SuiAddress.wf_len h.1.1.2),
    decodeFix_encodeFix 8 price h.1.2, decodeFix_encodeFix 8 budget h.2]

/-- Modelled from the spec: the optional expiration epoch is a tagged union —
None 0, Epoch 1 followed by a u64. -/
def encodeExpiration : TransactionExpiration → List Nat
  | .none => encodeUleb 0
  | .epoch e => encodeUleb 1 ++ encodeFix 8 e

/-- Modelled from the spec: decoder for the expiration. -/
def decodeExpiration (l : List Nat) : Option (TransactionExpiration × List Nat) :=
  match decodeUleb l with
  | some (tag, l1) =>
    if tag = 0 then some (.none, l1)
    else if tag = 1 then
      match decodeFix 8 l1 with
      | some (e, rest) => some (.epoch e, rest)
      | none => none
    else none
  | none => none

theorem decodeExpiration_encodeExpiration (x : TransactionExpiration)
    (h : x.wf = true) (rest : List Nat) :
    decodeExpiration (encodeExpiration x ++ rest) = some (x, rest) := by
  cases x with
  | none => simp [encodeExpiration, decodeExpiration, decodeUleb_encodeUleb]
  | epoch e =>
    simp only [TransactionExpiration.wf, decide_eq_true_eq] at h
    simp [encodeExpiration, decodeExpiration, List.append_assoc,
      decodeUleb_encodeUleb, decodeFix_encodeFix 8 e h]

/-- Modelled from the spec: a programmable transaction is its length-prefixed
input sequence followed by its length-prefixed command sequence. -/
def encodeProgrammable (pt : ProgrammableTransaction) : List Nat :=
  encodeListWith encodeCallArg pt.inputs ++ encodeListWith encodeCommand pt.commands

/-- Modelled from the spec: decoder for a programmable transaction. -/
def decodeProgrammable (l : List Nat) :
    Option (ProgrammableTransaction × List Nat) :=
  match decodeListWith decodeCallArg l with
  | some (ins, l1) =>
    match decodeListWith decodeCommand l1 with
    | some (cmds, rest) => some (⟨ins, cmds⟩, rest)
    | none => none
  | none => none

theorem decodeProgrammable_encodeProgrammable (pt : ProgrammableTransaction)
    (h : pt.wf = true) (rest : List Nat) :
    decodeProgrammable (encodeProgrammable pt ++ rest) = some (pt, rest) := by
  obtain ⟨ins, cmds⟩ := pt
  simp only [ProgrammableTransaction.wf, Bool.and_eq_true] at h
  have hins : decodeListWith decodeCallArg
      (encodeListWith encodeCallArg ins ++ (encodeListWith encodeCommand cmds ++ rest)) =
      some (ins, encodeListWith encodeCommand cmds ++ rest) := by
    refine decodeListWith_encodeListWith decodeCallArg encodeCallArg ins ?_ _
    intro a ha r
    exact decodeCallArg_encodeCallArg a (List.all_eq_true.mp h.1 a ha) r
  have hcmds : decodeListWith decodeCommand
      (encodeListWith encodeCommand cmds ++ rest) = some (cmds, rest) := by
    refine decodeListWith_encodeListWith decodeCommand encodeCommand cmds ?_ _
    intro a ha r
    exact decodeCommand_encodeCommand a (List.all_eq_true.mp h.2 a ha) r
  simp [encodeProgrammable, decodeProgrammable, List.append_assoc, hins, hcmds]

/-- Modelled from the spec: `TransactionKind` is a tagged union whose only
in-scope variant is ProgrammableTransaction with discriminant 0. -/
def encodeKind : TransactionKind → List Nat
  | .programmable pt => encodeUleb 0 ++ encodeProgrammable pt

/-- Modelled from the spec: decoder for `TransactionKind`. -/
def decodeKind (l : List Nat) : Option (TransactionKind × List Nat) :=
  match decodeUleb l with
  | some (tag, l1) =>
    if tag = 0 then
      match decodeProgrammable l1 with
      | some (pt, rest) => some (.programmable pt, rest)
      | none => none
    else none
  | none => none

theorem decodeKind_encodeKind (k : TransactionKind) (h : k.wf = true)
    (rest : List Nat) :
    decodeKind (encodeKind k ++ rest) = some (k, rest) := by
  cases k with
  | programmable pt =>
    simp [encodeKind, decodeKind, List.append_assoc, decodeUleb_encodeUleb,
      decodeProgrammable_encodeProgrammable pt h]

/-- Modelled from the spec: a `TransactionData` begins with a version tag (V1
is 0) followed by the sender, gas data, expiration and kind fields in the
order of section 3. -/
def encodeTransactionData : TransactionData → List Nat
  | .v1 d =>
    encodeUleb 0 ++ encodeAddress d.sender ++ encodeGasData d.gasData ++
      encodeExpiration d.expiration ++ encodeKind d.kind

/-- Modelled from the spec: prefix decoder for a `TransactionData`. -/
def decodeTransactionData (l : List Nat) : Option (TransactionData × List Nat) :=
  match decodeUleb l with
  | some (tag, l1) =>
    if tag = 0 then
      match decodeAddress l1 with
      | some (sender, l2) =>
        match decodeGasData l2 with
        | some (g, l3) =>
          match decodeExpiration l3 with
          | some (x, l4) =>
            match decodeKind l4 with
            | some (k, rest) => some (.v1 ⟨sender, g, x, k⟩, rest)
            | none => none
          | none => none
        | none => none
      | none => none
    else none
  | none => none

/-- Modelled from the spec: top-level decode of the envelope; unconsumed
trailing bytes are a hard decode failure (spec section 4.1). -/
def decodeTransactionDataTop (l : List Nat) : Option TransactionData :=
  match decodeTransactionData l with
  | some (td, []) => some td
  | _ => none

theorem decodeTransactionData_encodeTransactionData (td : TransactionData)
    (h : td.wf = true) (rest : List Nat) :
    decodeTransactionData (encodeTransactionData td ++ rest) = some (td, rest) := by
  obtain ⟨sender, g, x, k⟩ := td
  simp only [TransactionData.wf, TransactionDataV1.wf, Bool.and_eq_true] at h
  simp [encodeTransactionData, decodeTransactionData, List.append_assoc,
    decodeUleb_encodeUleb,
    decodeAddress_encodeAddress _ (SuiAddress.wf_len h.1.1.1),
    decodeGasData_encodeGasData _ h.1.1.2,
    decodeExpiration_encodeExpiration _ h.1.2,
    decodeKind_encodeKind _ h.2]

/-! ## Input pool, argument resolver and assembler (spec sections 4.2 to 4.5) -/

/-- Modelled from the spec: the construction-time error of the builder layer
(spec section 7 taxonomy). -/
inductive BuilderError
  | validationError
deriving DecidableEq, Repr

/-- Result of a fallible builder operation. -/
inductive BuildResult (α : Type)
  | ok (val : α)
  | err (e : BuilderError)
deriving DecidableEq, Repr

/-- Modelled from the spec: one builder session owns the input pool and the
append-only command sequence. -/
structure BuilderState where
  inputs : List CallArg
  commands : List Command
deriving DecidableEq, Repr

/-- Modelled from the spec: `registerObject` walks the pool; if an input with
the same underlying object id already exists, the slot is overwritten with the
most recently supplied `ObjectArg` and the existing index is returned,
otherwise a new slot is appended (spec section 4.2). -/
def registerObjectAux : List CallArg → ObjectArg → List CallArg × Nat
  | [], o => ([CallArg.object o], 0)
  | inp :: rest, o =>
    if inp.objectIdOf = some o.objectIdOf then (CallArg.object o :: rest, 0)
    else
      let r := registerObjectAux rest o
      (inp :: r.1, r.2 + 1)

/-- Modelled from the spec: `registerObject(ObjectArg) -> index` on a builder
session, deduplicating by object id. -/
def registerObject (st : BuilderState) (o : ObjectArg) : BuilderState × Nat :=
  let r := registerObjectAux st.inputs o
  ({ st with inputs := r.1 }, r.2)

/-- Modelled from the spec: `registerPure(bytes) -> index` always appends a new
slot (pure values are not deduplicated). -/
def registerPure (st : BuilderState) (bs : List Nat) : BuilderState × Nat :=
  ({ st with inputs := st.inputs ++ [CallArg.pure bs] }, st.inputs.length)

/-- Modelled from the spec: the argument resolver validates an
`Argument::Input(i)` against the current input pool size at the moment the
argument is constructed (spec sections 4.3 and 3, invariant 1). -/
def mkInput (st : BuilderState) (i : Nat) : BuildResult Argument :=
  if i < st.inputs.length then .ok (.input i)
  else .err .validationError

/-- Modelled from the spec: the argument resolver validates an
`Argument::Result(i)` against the number of commands already appended at the
moment the argument is constructed (spec sections 4.3 and 3, invariant 2). -/
def mkResult (st : BuilderState) (i : Nat) : BuildResult Argument :=
  if i < st.commands.length then .ok (.result i)
  else .err .validationError

/-- Modelled from the spec: the statically known result arity of a command —
`SplitCoins` produces as many results as it has amounts; `MergeCoins`,
`TransferObjects`, `Publish`, `Upgrade` and `MakeMoveVec` produce one result;
`MoveCall` arity is dynamic and unknown at build time (spec section 3,
invariant 3). -/
def resultArity : Command → Option Nat
  | .moveCall _ _ _ _ _ => none
  | .transferObjects _ _ => some 1
  | .splitCoins _ amounts => some amounts.length
  | .mergeCoins _ _ => some 1
  | .makeMoveVec _ _ => some 1
  | .publish _ _ => some 1
  | .upgrade _ _ _ _ => some 1

/-- Modelled from the spec: the argument resolver validates a
`NestedResult(i, j)` — `i` must refer to an already appended command, and when
that command has statically known result arity the subindex `j` must be below
it; a `MoveCall` result is never bounds-checked at build time (spec sections
4.3 and 3, invariants 2 and 3). -/
def mkNestedResult (st : BuilderState) (i j : Nat) : BuildResult Argument :=
  if h : i < st.commands.length then
    match resultArity (st.commands.get ⟨i, h⟩) with
    | some n => if j < n then .ok (.nestedResult i j) else .err .validationError
    | none => .ok (.nestedResult i j)
  else .err .validationError

/-- Modelled from the spec: the assembler finalizes a programmable transaction
into a `TransactionData`; it fails with `ValidationError` if the sender is
unset or the gas payment sequence is empty (spec section 4.5). -/
def build (sender : Option SuiAddress) (gasData : GasData)
    (expiration : TransactionExpiration) (pt : ProgrammableTransaction) :
    BuildResult TransactionData :=
  match sender with
  | .none => .err .validationError
  | .some s =>
    if gasData.payment.isEmpty then .err .validationError
    else .ok (.v1 ⟨s, gasData, expiration, .programmable pt⟩)

/-! ## Kiosk `TransferPolicyTransaction` helper

Embedded from `sdk/kiosk/src/client/tp-transaction.ts`.  The underlying
`TransactionBlock` is abstracted as the list of commands appended to it; the
helper functions from `../tx/` (`createTransferPolicy`, `withdrawFromPolicy`,
`attachRoyaltyRuleTx`, ...) each append one abstract command.  A thrown
JavaScript `Error` is modelled as returning the state at the moment of the
throw together with the error; since every guard in the source runs before any
mutation, a throw always returns the entry state unchanged. -/

/-- Errors thrown by `TransferPolicyTransaction`: the precondition errors of
`#validateInputs` / the `shareAndTransferCap` guard, and the
already-existing-policy error of `create` / `createAndShare`. -/
inductive KioskError
  | preconditionError
  | policyExistsError
deriving DecidableEq, Repr

/-- An abstract record of one command appended to the wrapped transaction
block by the kiosk helper functions. -/
inductive KioskCommand
  | createPolicy
  | createPolicyNoShare
  | sharePolicy
  | transferObjectsCmd
  | withdrawCall
  | attachRoyaltyRule
  | attachLockRule
  | attachPersonalKioskRule
  | attachFloorPriceRule
  | removeRuleCall (ruleType : String) (configType : String)
deriving DecidableEq, Repr

/-- The mutable fields of a `TransferPolicyTransaction`: the optional policy
object, policy cap and item type (all unset until `setCap` / `create`), plus
the wrapped transaction block. -/
structure TPState where
  policy : Option String
  policyCap : Option String
  type : Option String
  txb : List KioskCommand
deriving DecidableEq, Repr

namespace TPState

/-- `#validateInputs` of `tp-transaction.ts` lines 330-339: throws when the
policy object, the policy cap or the type is missing, in that order. -/
def validateInputs (st : TPState) : Option KioskError :=
  if st.policy.isNone then some .preconditionError
  else if st.policyCap.isNone then some .preconditionError
  else if st.type.isNone then some .preconditionError
  else none

/-- The helper is configured once the policy object, policy cap and type are
all set (spec section 4.6's `configured` state). -/
def configured (st : TPState) : Bool :=
  st.policy.isSome && st.policyCap.isSome && st.type.isSome

/-- `#setup` of `tp-transaction.ts`: sets policy, cap and type. -/
def setup (st : TPState) (policyId policyCapId type : String) : TPState :=
  { st with policy := some policyId, policyCap := some policyCapId,
            type := some type }

/-- `setCap` of `tp-transaction.ts`: delegates to `#setup`. -/
def setCap (st : TPState) (policyId policyCapId type : String) : TPState :=
  st.setup policyId policyCapId type

/-- `createAndShare` of `tp-transaction.ts` lines 59-73: unless `skipCheck` is
set, consults the kiosk client's transfer policies for the type and throws if
one already exists; otherwise appends the create-and-share commands.
`policies` is the list returned by `kioskClient.getTransferPolicies`. -/
def createAndShare (st : TPState) (policies : List String) (skipCheck : Bool) :
    TPState × Option KioskError :=
  if !skipCheck && policies.length > 0 then (st, some .policyExistsError)
  else ({ st with
          txb := st.txb ++ [.createPolicy, .transferObjectsCmd] }, none)

/-- `create` of `tp-transaction.ts` lines 83-100: same existence check, then
appends the create-without-sharing command and configures the helper with the
two returned transaction arguments and the type. -/
def create (st : TPState) (policies : List String) (skipCheck : Bool)
    (type : String) : TPState × Option KioskError :=
  if !skipCheck && policies.length > 0 then (st, some .policyExistsError)
  else
    (TPState.setup { st with txb := st.txb ++ [KioskCommand.createPolicyNoShare] }
      "policyResult" "policyCapResult" type, none)

/-- `shareAndTransferCap` of `tp-transaction.ts` lines 108-117: throws unless
type, policy cap and policy are all set, then shares the policy and transfers
the cap. -/
def shareAndTransferCap (st : TPState) : TPState × Option KioskError :=
  if st.type.isNone || st.policyCap.isNone || st.policy.isNone then
    (st, some .preconditionError)
  else ({ st with txb := st.txb ++ [.sharePolicy, .transferObjectsCmd] }, none)

/-- `withdraw` of `tp-transaction.ts` lines 133-147: validates, then appends
the withdraw move call and the transfer of the withdrawn coin. -/
def withdraw (st : TPState) : TPState × Option KioskError :=
  match st.validateInputs with
  | some e => (st, some e)
  | none => ({ st with txb := st.txb ++ [.withdrawCall, .transferObjectsCmd] }, none)

/-- `addRoyaltyRule` of `tp-transaction.ts` lines 159-178: validates, then
appends the royalty-rule attachment. -/
def addRoyaltyRule (st : TPState) : TPState × Option KioskError :=
  match st.validateInputs with
  | some e => (st, some e)
  | none => ({ st with txb := st.txb ++ [.attachRoyaltyRule] }, none)

/-- `addLockRule` of `tp-transaction.ts` lines 184-195. -/
def addLockRule (st : TPState) : TPState × Option KioskError :=
  match st.validateInputs with
  | some e => (st, some e)
  | none => ({ st with txb := st.txb ++ [.attachLockRule] }, none)

/-- `addPersonalKioskRule` of `tp-transaction.ts` lines 200-211. -/
def addPersonalKioskRule (st : TPState) : TPState × Option KioskError :=
  match st.validateInputs with
  | some e => (st, some e)
  | none => ({ st with txb := st.txb ++ [.attachPersonalKioskRule] }, none)

/-- `addFloorPriceRule` of `tp-transaction.ts` lines 217-229. -/
def addFloorPriceRule (st : TPState) : TPState × Option KioskError :=
  match st.validateInputs with
  | some e => (st, some e)
  | none => ({ st with txb := st.txb ++ [.attachFloorPriceRule] }, none)

/-- `removeRule` of `tp-transaction.ts` lines 236-247. -/
def removeRule (st : TPState) (ruleType configType : String) :
    TPState × Option KioskError :=
  match st.validateInputs with
  | some e => (st, some e)
  | none => ({ st with txb := st.txb ++ [.removeRuleCall ruleType configType] }, none)

/-- `removeLockRule` of `tp-transaction.ts` lines 252-266; `packageId` is the
kiosk client's lock-rule package id. -/
def removeLockRule (st : TPState) (packageId : String) :
    TPState × Option KioskError :=
  match st.validateInputs with
  | some e => (st, some e)
  | none => ({ st with txb := st.txb ++
      [.removeRuleCall (packageId ++ "::kiosk_lock_rule::Rule")
        (packageId ++ "::kiosk_lock_rule::Config")] }, none)

/-- `removeRoyaltyRule` of `tp-transaction.ts` lines 271-285. -/
def removeRoyaltyRule (st : TPState) (packageId : String) :
    TPState × Option KioskError :=
  match st.validateInputs with
  | some e => (st, some e)
  | none => ({ st with txb := st.txb ++
      [.removeRuleCall (packageId ++ "::royalty_rule::Rule")
        (packageId ++ "::royalty_rule::Config")] }, none)

/-- `removePersonalKioskRule` of `tp-transaction.ts` lines 287-301. -/
def removePersonalKioskRule (st : TPState) (packageId : String) :
    TPState × Option KioskError :=
  match st.validateInputs with
  | some e => (st, some e)
  | none => ({ st with txb := st.txb ++
      [.removeRuleCall (packageId ++ "::personal_kiosk_rule::Rule") "bool"] }, none)

/-- `removeFloorPriceRule` of `tp-transaction.ts` lines 303-317. -/
def removeFloorPriceRule (st : TPState) (packageId : String) :
    TPState × Option KioskError :=
  match st.validateInputs with
  | some e => (st, some e)
  | none => ({ st with txb := st.txb ++
      [.removeRuleCall (packageId ++ "::floor_price_rule::Rule")
        (packageId ++ "::floor_price_rule::Config")] }, none)

end TPState

/-! ## Shared helper lemmas -/

theorem registerObjectAux_dedup (pool : List CallArg) (o1 o2 : ObjectArg)
    (h : o1.objectIdOf = o2.objectIdOf) :
    (registerObjectAux (registerObjectAux pool o1).1 o2).2 =
      (registerObjectAux pool o1).2 ∧
    ((registerObjectAux (registerObjectAux pool o1).1 o2).1)[(registerObjectAux pool o1).2]? =
      some (CallArg.object o2) := by
  induction pool with
  | nil =>
    simp [registerObjectAux, CallArg.objectIdOf, h]
  | cons inp rest ih =>
    cases inp with
    | pure bs =>
      simpa [registerObjectAux, CallArg.objectIdOf] using ih
    | object oin =>
      by_cases hid : oin.objectIdOf = o1.objectIdOf
      · simp [registerObjectAux, CallArg.objectIdOf, hid, h]
      · have hid2 : ¬ oin.objectIdOf = o2.objectIdOf := fun he =>
          hid (he.trans h.symm)
        simpa [registerObjectAux, CallArg.objectIdOf, hid, hid2] using ih

theorem validateInputs_of_not_configured {st : TPState}
    (h : st.configured = false) :
    st.validateInputs = some KioskError.preconditionError := by
  unfold TPState.configured at h
  unfold TPState.validateInputs
  cases hp : st.policy <;> cases hc : st.policyCap <;> cases ht : st.type <;>
    simp_all

theorem share_guard_of_not_configured {st : TPState}
    (h : st.configured = false) :
    (st.type.isNone || st.policyCap.isNone || st.policy.isNone) = true := by
  unfold TPState.configured at h
  cases hp : st.policy <;> cases hc : st.policyCap <;> cases ht : st.type <;>
    simp_all

/-! ## Sample values used by the witnesses -/

def sampleAddress : SuiAddress := ⟨List.replicate 32 0⟩

def sampleAddress2 : SuiAddress := ⟨List.replicate 31 0 ++ [2]⟩

def sampleRef : ObjectRef := ⟨sampleAddress2, 1, List.replicate 32 3⟩

/-- The four-input, four-command shape of the serializer tests, reduced to a
small concrete envelope. -/
def sampleTransactionData : TransactionData :=
  .v1 ⟨sampleAddress,
       ⟨[sampleRef], sampleAddress2, 1, 1000000⟩,
       .none,
       .programmable
         ⟨[CallArg.object (.immOrOwned sampleRef), CallArg.pure [4, 5, 6]],
          [Command.moveCall sampleAddress2 [100] [110] [] [.input 0],
           Command.transferObjects [.result 0] (.input 1)]⟩⟩

def sampleBuilder : BuilderState :=
  ⟨[CallArg.pure [1]], [Command.transferObjects [] .gasCoin]⟩

def c3Builder : BuilderState :=
  ⟨[], [Command.splitCoins .gasCoin [.gasCoin, .gasCoin],
        Command.moveCall sampleAddress [] [] [] [],
        Command.mergeCoins .gasCoin [.gasCoin],
        Command.transferObjects [.gasCoin] .gasCoin,
        Command.publish [] [],
        Command.upgrade [] [] sampleAddress .gasCoin]⟩

def unsetTP : TPState := ⟨none, none, none, []⟩

def configuredTP : TPState := unsetTP.setCap "policyId" "capId" "0x2::item::Item"

/-! ## Claims -/

/-- C1: for every value valid under a schema — in particular every command
variant and every `TransactionData` — decoding the encoding yields the value
back; addresses are held in normalized byte form, so the comparison is on
normalized forms. -/
theorem c1_codec_roundtrip :
    (∀ c : Command, c.wf = true →
        decodeCommand (encodeCommand c) = some (c, [])) ∧
    (∀ td : TransactionData, td.wf = true →
        decodeTransactionDataTop (encodeTransactionData td) = some td) := by
  constructor
  · intro c hc
    simpa using decodeCommand_encodeCommand c hc []
  · intro td htd
    have h := decodeTransactionData_encodeTransactionData td htd []
    rw [List.append_nil] at h
    simp [decodeTransactionDataTop, h]

theorem c1_codec_roundtrip_witness :
    decodeTransactionDataTop (encodeTransactionData sampleTransactionData) =
      some sampleTransactionData :=
  c1_codec_roundtrip.2 sampleTransactionData (by decide)

/-- C2: constructing an `Argument::Result(i)` with `i` at or above the current
command count fails with `ValidationError` at construction time, and with `i`
strictly below the current command count always succeeds. -/
theorem c2_result_reference (st : BuilderState) (i : Nat) :
    (st.commands.length ≤ i → mkResult st i = .err .validationError) ∧
    (i < st.commands.length → mkResult st i = .ok (.result i)) := by
  constructor
  · intro h
    simp [mkResult, Nat.not_lt.mpr h]
  · intro h
    simp [mkResult, h]

theorem c2_result_reference_witness :
    mkResult sampleBuilder 1 = .err .validationError ∧
    mkResult sampleBuilder 0 = .ok (.result 0) :=
  ⟨(c2_result_reference sampleBuilder 1).1 (by decide),
   (c2_result_reference sampleBuilder 0).2 (by decide)⟩

/-- C3: a `NestedResult` referring to the result of any command with
statically known result arity fails with `ValidationError` when its subindex
reaches that arity and succeeds below it — `SplitCoins` has arity equal to its
amounts count, and `MergeCoins`, `TransferObjects`, `Publish` and `Upgrade`
have arity 1 — while a `NestedResult` referring to a `MoveCall` result
succeeds for any subindex, since `MoveCall` arity is dynamic and unchecked at
build time. -/
theorem c3_nested_result_arity (st : BuilderState) (i j : Nat)
    (h : i < st.commands.length) :
    (∀ n, resultArity (st.commands.get ⟨i, h⟩) = some n →
        ((n ≤ j → mkNestedResult st i j = .err .validationError) ∧
         (j < n → mkNestedResult st i j = .ok (.nestedResult i j)))) ∧
    (∀ coin amounts,
        st.commands.get ⟨i, h⟩ = Command.splitCoins coin amounts →
        resultArity (st.commands.get ⟨i, h⟩) = some amounts.length) ∧
    (∀ dst srcs,
        st.commands.get ⟨i, h⟩ = Command.mergeCoins dst srcs →
        resultArity (st.commands.get ⟨i, h⟩) = some 1) ∧
    (∀ objs addr,
        st.commands.get ⟨i, h⟩ = Command.transferObjects objs addr →
        resultArity (st.commands.get ⟨i, h⟩) = some 1) ∧
    (∀ mods deps,
        st.commands.get ⟨i, h⟩ = Command.publish mods deps →
        resultArity (st.commands.get ⟨i, h⟩) = some 1) ∧
    (∀ mods deps pkg ticket,
        st.commands.get ⟨i, h⟩ = Command.upgrade mods deps pkg ticket →
        resultArity (st.commands.get ⟨i, h⟩) = some 1) ∧
    (∀ pkg m f tas args,
        st.commands.get ⟨i, h⟩ = Command.moveCall pkg m f tas args →
        mkNestedResult st i j = .ok (.nestedResult i j)) := by
  refine ⟨?_, ?_, ?_, ?_, ?_, ?_, ?_⟩
  · intro n harity
    constructor
    · intro hj
      unfold mkNestedResult
      rw [dif_pos h, harity]
      simp [Nat.not_lt.mpr hj]
    · intro hj
      unfold mkNestedResult
      rw [dif_pos h, harity]
      simp [hj]
  · intro coin amounts hcmd
    rw [hcmd]
    rfl
  · intro dst srcs hcmd
    rw [hcmd]
    rfl
  · intro objs addr hcmd
    rw [hcmd]
    rfl
  · intro mods deps hcmd
    rw [hcmd]
    rfl
  · intro mods deps pkg ticket hcmd
    rw [hcmd]
    rfl
  · intro pkg m f tas args hcmd
    unfold mkNestedResult
    rw [dif_pos h, hcmd]
    simp [resultArity]

theorem c3_nested_result_arity_witness :
    mkNestedResult c3Builder 0 2 = .err .validationError ∧
    mkNestedResult c3Builder 0 1 = .ok (.nestedResult 0 1) ∧
    mkNestedResult c3Builder 2 1 = .err .validationError ∧
    mkNestedResult c3Builder 2 0 = .ok (.nestedResult 2 0) ∧
    mkNestedResult c3Builder 3 1 = .err .validationError ∧
    mkNestedResult c3Builder 3 0 = .ok (.nestedResult 3 0) ∧
    mkNestedResult c3Builder 4 1 = .err .validationError ∧
    mkNestedResult c3Builder 4 0 = .ok (.nestedResult 4 0) ∧
    mkNestedResult c3Builder 5 1 = .err .validationError ∧
    mkNestedResult c3Builder 5 0 = .ok (.nestedResult 5 0) ∧
    mkNestedResult c3Builder 1 99 = .ok (.nestedResult 1 99) :=
  ⟨((c3_nested_result_arity c3Builder 0 2 (by decide)).1 2 (by decide)).1 (by decide),
   ((c3_nested_result_arity c3Builder 0 1 (by decide)).1 2 (by decide)).2 (by decide),
   ((c3_nested_result_arity c3Builder 2 1 (by decide)).1 1 (by decide)).1 (by decide),
   ((c3_nested_result_arity c3Builder 2 0 (by decide)).1 1 (by decide)).2 (by decide),
   ((c3_nested_result_arity c3Builder 3 1 (by decide)).1 1 (by decide)).1 (by decide),
   ((c3_nested_result_arity c3Builder 3 0 (by decide)).1 1 (by decide)).2 (by decide),
   ((c3_nested_result_arity c3Builder 4 1 (by decide)).1 1 (by decide)).1 (by decide),
   ((c3_nested_result_arity c3Builder 4 0 (by decide)).1 1 (by decide)).2 (by decide),
   ((c3_nested_result_arity c3Builder 5 1 (by decide)).1 1 (by decide)).1 (by decide),
   ((c3_nested_result_arity c3Builder 5 0 (by decide)).1 1 (by decide)).2 (by decide),
   (c3_nested_result_arity c3Builder 1 99 (by decide)).2.2.2.2.2.2 sampleAddress
      [] [] [] [] (by decide)⟩

/-- C4: registering an object input whose id already exists in the pool
returns the existing index instead of appending, and after registering the
same object id twice with different versions the single slot at that index
holds the most recently registered `ObjectArg`. -/
theorem c4_register_object_dedup (st : BuilderState) (o1 o2 : ObjectArg)
    (h : o1.objectIdOf = o2.objectIdOf) :
    (registerObject (registerObject st o1).1 o2).2 = (registerObject st o1).2 ∧
    ((registerObject (registerObject st o1).1 o2).1.inputs)[(registerObject st o1).2]? =
      some (CallArg.object o2) := by
  have := registerObjectAux_dedup st.inputs o1 o2 h
  simpa [registerObject] using this

theorem c4_register_object_dedup_witness :
    (registerObject (registerObject ⟨[], []⟩ (.immOrOwned sampleRef)).1
        (.immOrOwned ⟨sampleAddress2, 7, List.replicate 32 9⟩)).2 =
      (registerObject ⟨[], []⟩ (ObjectArg.immOrOwned sampleRef)).2 ∧
    ((registerObject (registerObject ⟨[], []⟩ (.immOrOwned sampleRef)).1
        (.immOrOwned ⟨sampleAddress2, 7, List.replicate 32 9⟩)).1.inputs)[(registerObject ⟨[], []⟩ (ObjectArg.immOrOwned sampleRef)).2]? =
      some (CallArg.object (.immOrOwned ⟨sampleAddress2, 7, List.replicate 32 9⟩)) :=
  c4_register_object_dedup ⟨[], []⟩ (.immOrOwned sampleRef)
    (.immOrOwned ⟨sampleAddress2, 7, List.replicate 32 9⟩) (by decide)

/-- C5: every `TransferPolicyTransaction` operation requiring configuration —
withdraw, the four rule attachments, `removeRule` and its specialized
variants, and `shareAndTransferCap` — fails with a precondition error when
invoked before the policy, cap and type are set, and leaves the underlying
transaction block (indeed the whole helper state) unchanged. -/
theorem c5_unconfigured_operations_fail (st : TPState)
    (hc : st.configured = false) (ruleType configType packageId : String) :
    st.withdraw = (st, some KioskError.preconditionError) ∧
    st.addRoyaltyRule = (st, some KioskError.preconditionError) ∧
    st.addLockRule = (st, some KioskError.preconditionError) ∧
    st.addPersonalKioskRule = (st, some KioskError.preconditionError) ∧
    st.addFloorPriceRule = (st, some KioskError.preconditionError) ∧
    st.removeRule ruleType configType = (st, some KioskError.preconditionError) ∧
    st.removeLockRule packageId = (st, some KioskError.preconditionError) ∧
    st.removeRoyaltyRule packageId = (st, some KioskError.preconditionError) ∧
    st.removePersonalKioskRule packageId = (st, some KioskError.preconditionError) ∧
    st.removeFloorPriceRule packageId = (st, some KioskError.preconditionError) ∧
    st.shareAndTransferCap = (st, some KioskError.preconditionError) := by
  have hv := validateInputs_of_not_configured hc
  have hs := share_guard_of_not_configured hc
  refine ⟨?_, ?_, ?_, ?_, ?_, ?_, ?_, ?_, ?_, ?_, ?_⟩ <;>
    simp [TPState.withdraw, TPState.addRoyaltyRule, TPState.addLockRule,
      TPState.addPersonalKioskRule, TPState.addFloorPriceRule,
      TPState.removeRule, TPState.removeLockRule, TPState.removeRoyaltyRule,
      TPState.removePersonalKioskRule, TPState.removeFloorPriceRule,
      TPState.shareAndTransferCap, hv, hs]

theorem c5_unconfigured_operations_fail_witness :
    unsetTP.withdraw = (unsetTP, some KioskError.preconditionError) ∧
    unsetTP.addRoyaltyRule = (unsetTP, some KioskError.preconditionError) ∧
    unsetTP.addLockRule = (unsetTP, some KioskError.preconditionError) ∧
    unsetTP.addPersonalKioskRule = (unsetTP, some KioskError.preconditionError) ∧
    unsetTP.addFloorPriceRule = (unsetTP, some KioskError.preconditionError) ∧
    unsetTP.removeRule "r" "c" = (unsetTP, some KioskError.preconditionError) ∧
    unsetTP.removeLockRule "p" = (unsetTP, some KioskError.preconditionError) ∧
    unsetTP.removeRoyaltyRule "p" = (unsetTP, some KioskError.preconditionError) ∧
    unsetTP.removePersonalKioskRule "p" = (unsetTP, some KioskError.preconditionError) ∧
    unsetTP.removeFloorPriceRule "p" = (unsetTP, some KioskError.preconditionError) ∧
    unsetTP.shareAndTransferCap = (unsetTP, some KioskError.preconditionError) :=
  c5_unconfigured_operations_fail unsetTP (by decide) "r" "c" "p"

/-- C6 counterexample: the helper has no terminal finalized state.  Starting
from an unconfigured helper, configuring it with `setCap` and then finalizing
with `shareAndTransferCap` (which succeeds), a subsequent mutation
(`addLockRule`) still succeeds and appends a command, contradicting the claim
that after finalization every mutation operation fails. -/
theorem c6_no_terminal_state_counterexample :
    configuredTP.shareAndTransferCap.2 = none ∧
    configuredTP.shareAndTransferCap.1.addLockRule.2 = none ∧
    configuredTP.shareAndTransferCap.1.addLockRule.1.txb =
      configuredTP.shareAndTransferCap.1.txb ++ [KioskCommand.attachLockRule] := by
  refine ⟨rfl, rfl, rfl⟩

/-- C6 amended: `TransferPolicyTransaction` tracks only the states
uninitialized and configured.  There is no terminal finalized state: once
configured, the helper stays configured after `shareAndTransferCap`, and every
mutation operation invoked afterwards still succeeds and appends its
commands. -/
theorem c6_amended_no_terminal_state (st : TPState)
    (h : st.configured = true) :
    st.shareAndTransferCap.2 = none ∧
    st.shareAndTransferCap.1.configured = true ∧
    st.shareAndTransferCap.1.addLockRule.2 = none ∧
    st.shareAndTransferCap.1.addLockRule.1.txb =
      st.shareAndTransferCap.1.txb ++ [KioskCommand.attachLockRule] ∧
    st.shareAndTransferCap.1.withdraw.2 = none ∧
    (st.shareAndTransferCap.1.removeRule "r" "c").2 = none := by
  unfold TPState.configured at h
  obtain ⟨p, hp⟩ : ∃ p, st.policy = some p := by
    cases hpol : st.policy <;> simp_all
  obtain ⟨c, hcap⟩ : ∃ c, st.policyCap = some c := by
    cases hcp : st.policyCap <;> simp_all
  obtain ⟨t, ht⟩ : ∃ t, st.type = some t := by
    cases htp : st.type <;> simp_all
  simp [TPState.shareAndTransferCap, TPState.addLockRule, TPState.withdraw,
    TPState.removeRule, TPState.validateInputs, TPState.configured,
    hp, hcap, ht]

theorem c6_amended_no_terminal_state_witness :
    configuredTP.shareAndTransferCap.2 = none ∧
    configuredTP.shareAndTransferCap.1.configured = true ∧
    configuredTP.shareAndTransferCap.1.addLockRule.2 = none ∧
    configuredTP.shareAndTransferCap.1.addLockRule.1.txb =
      configuredTP.shareAndTransferCap.1.txb ++ [KioskCommand.attachLockRule] ∧
    configuredTP.shareAndTransferCap.1.withdraw.2 = none ∧
    (configuredTP.shareAndTransferCap.1.removeRule "r" "c").2 = none :=
  c6_amended_no_terminal_state configuredTP (by decide)

/-- C7: finalizing requires a sender — `build` fails with `ValidationError`
when the sender is unset or the gas payment sequence is empty, and otherwise
succeeds in producing the versioned `TransactionData` envelope. -/
theorem c7_build_requires_sender (gasData : GasData)
    (x : TransactionExpiration) (pt : ProgrammableTransaction) :
    (build none gasData x pt = .err .validationError) ∧
    (∀ s, gasData.payment = [] →
        build (some s) gasData x pt = .err .validationError) ∧
    (∀ s, gasData.payment ≠ [] →
        build (some s) gasData x pt =
          .ok (.v1 ⟨s, gasData, x, .programmable pt⟩)) := by
  refine ⟨rfl, ?_, ?_⟩
  · intro s hp
    simp [build, hp]
  · intro s hp
    simp [build, List.isEmpty_iff, hp]

theorem c7_build_requires_sender_witness :
    (build none ⟨[sampleRef], sampleAddress2, 1, 1000000⟩ .none ⟨[], []⟩ =
      .err .validationError) ∧
    (build (some sampleAddress) ⟨[], sampleAddress2, 1, 1000000⟩ .none ⟨[], []⟩ =
      .err .validationError) ∧
    (build (some sampleAddress) ⟨[sampleRef], sampleAddress2, 1, 1000000⟩ .none ⟨[], []⟩ =
      .ok (.v1 ⟨sampleAddress, ⟨[sampleRef], sampleAddress2, 1, 1000000⟩, .none,
        .programmable ⟨[], []⟩⟩)) :=
  ⟨(c7_build_requires_sender ⟨[sampleRef], sampleAddress2, 1, 1000000⟩ .none ⟨[], []⟩).1,
   (c7_build_requires_sender ⟨[], sampleAddress2, 1, 1000000⟩ .none ⟨[], []⟩).2.1
      sampleAddress (by decide),
   (c7_build_requires_sender ⟨[sampleRef], sampleAddress2, 1, 1000000⟩ .none ⟨[], []⟩).2.2
      sampleAddress (by decide)⟩

/-- The `MoveCall` of Scenario A: target `0x2::display::new`, one type
argument `0x6::capy::Capy`, and the four arguments GasCoin,
NestedResult(0,1), Input(3), Result(1).  Names are UTF-8 bytes
(`display` = [100,105,115,112,108,97,121], `new` = [110,101,119]). -/
def c8MoveCall : Command :=
  Command.moveCall sampleAddress2
    [100, 105, 115, 112, 108, 97, 121] [110, 101, 119]
    [⟨⟨List.replicate 31 0 ++ [6]⟩, [99, 97, 112, 121], [67, 97, 112, 121]⟩]
    [.gasCoin, .nestedResult 0 1, .input 3, .result 1]

/-- C8: encoding then decoding the Scenario A `MoveCall` yields arguments
structurally equal to the originals and preserves the module and function
name components exactly (the decoded command equals the original verbatim;
the package address is held in normalized byte form). -/
theorem c8_movecall_roundtrip :
    decodeCommand (encodeCommand c8MoveCall) =
      some (Command.moveCall sampleAddress2
        [100, 105, 115, 112, 108, 97, 121] [110, 101, 119]
        [⟨⟨List.replicate 31 0 ++ [6]⟩, [99, 97, 112, 121], [67, 97, 112, 121]⟩]
        [.gasCoin, .nestedResult 0 1, .input 3, .result 1], []) := by
  decide

/-- C9: encoding then decoding a `TransferObjects` command whose object list
is empty and whose address is Input(0) reproduces the command exactly, the
empty list staying an empty list. -/
theorem c9_transfer_objects_empty_roundtrip :
    decodeCommand (encodeCommand (Command.transferObjects [] (.input 0))) =
      some (Command.transferObjects [] (.input 0), []) := by
  decide

/-- C10: `create` and `createAndShare` with `skipCheck` unset throw the
already-exists error before appending any command when the kiosk client
reports at least one transfer policy for the type, and with `skipCheck` set
they append the policy-creation commands unconditionally. -/
theorem c10_create_existence_check (st : TPState) (policies : List String)
    (ty : String) :
    (policies ≠ [] →
      st.createAndShare policies false = (st, some KioskError.policyExistsError) ∧
      st.create policies false ty = (st, some KioskError.policyExistsError)) ∧
    (st.createAndShare policies true =
      ({ st with txb := st.txb ++
          [KioskCommand.createPolicy, KioskCommand.transferObjectsCmd] }, none)) ∧
    (st.create policies true ty =
      (TPState.setup
        { st with txb := st.txb ++ [KioskCommand.createPolicyNoShare] }
        "policyResult" "policyCapResult" ty, none)) := by
  refine ⟨?_, ?_, ?_⟩
  · intro hp
    have hlen : 0 < policies.length := List.length_pos.mpr hp
    constructor
    · simp [TPState.createAndShare, hlen]
    · simp [TPState.create, hlen]
  · simp [TPState.createAndShare]
  · simp [TPState.create]

theorem c10_create_existence_check_witness :
    (unsetTP.createAndShare ["policy0"] false =
      (unsetTP, some KioskError.policyExistsError) ∧
     unsetTP.create ["policy0"] false "T" =
      (unsetTP, some KioskError.policyExistsError)) ∧
    (unsetTP.createAndShare ["policy0"] true =
      ({ unsetTP with txb := unsetTP.txb ++
          [KioskCommand.createPolicy, KioskCommand.transferObjectsCmd] }, none)) ∧
    (unsetTP.create ["policy0"] true "T" =
      (TPState.setup
        { unsetTP with txb := unsetTP.txb ++ [KioskCommand.createPolicyNoShare] }
        "policyResult" "policyCapResult" "T", none)) :=
  ⟨(c10_create_existence_check unsetTP ["policy0"] "T").1 (by decide),
   (c10_create_existence_check unsetTP ["policy0"] "T").2.1,
   (c10_create_existence_check unsetTP ["policy0"] "T").2.2⟩

end SuiSpec
